import Mathlib

/-
Verification of the `ql` adapter (`ql/database.go`) of the upper-db
repository: a shallow embedding of its statement-execution pipeline
(doExec / doQuery / doQueryRow with the implicit-transaction policy and
positional-parameter renumbering), schema introspection (tableExists,
Collection, Collections) and session cloning (clone, Transaction).

Modelling conventions:
* Go strings are Lean `String` / `List Char`; `strings.ToLower` is modelled
  for the ASCII range (`asciiLower`), which covers every catalog identifier
  and type name the adapter deals with.
* The external database/sql collaborator is modelled by a behaviour record
  (`Conn`) and, for the introspection functions, by a `runQuery` function
  standing for `self.doQuery`; performed I/O is recorded in an event trace.
* `sqlgen.Statement` is the record `Stmt`; `Statement.Compile` is an
  external collaborator and is passed in as a function parameter.
* Errors of the `db` package are the inductive `DBError`; engine-reported
  errors carry an abstract numeric code.
-/

namespace Ql

/-- Errors of the upper.io/db package as used by ql/database.go, plus an
abstract constructor for engine-reported (driver) errors. -/
inductive DBError where
  | notConnected
  | missingDatabaseName
  | missingCollectionName
  | collectionDoesNotExists
  | engine (code : Nat)
  deriving DecidableEq

/-- The subset of reflect.Kind values producible by the datatype-guessing
switch in Collection.  `reflect.TypeOf(time.Time{}).Kind()` is
`reflect.Struct`, represented by the `Struct` constructor. -/
inductive Kind where
  | Int | Int8 | Int16 | Int32 | Int64
  | UInt | UInt8 | UInt16 | UInt32 | UInt64
  | Float32 | Float64
  | String
  | Struct
  deriving DecidableEq

/-- Model of the package-level `timeType = reflect.TypeOf(time.Time{}).Kind()`:
time.Time is a struct, so its Kind is reflect.Struct. -/
def timeType : Kind := Kind.Struct

/-- Model of db.Settings (the fields relevant to this adapter). -/
structure Settings where
  host : String := ""
  port : Nat := 0
  database : String := ""
  user : String := ""
  password : String := ""

/-- Statement kinds of util/sqlgen used by ql/database.go. -/
inductive SqlType where
  | select
  | dropDatabase
  deriving DecidableEq

/-- Model of sqlgen.Statement as constructed in ql/database.go: a where
clause item is a (column, operator) pair whose value is the neutral
placeholder `?`. -/
structure Stmt where
  type : SqlType
  table : String := ""
  columns : List String := []
  whereC : List (String × String) := []
  database : String := ""
  deriving DecidableEq

/-- The existence-check statement built in tableExists:
SELECT Name FROM __Table WHERE Name == ?. -/
def tableExistsStmt : Stmt :=
  { type := SqlType.select, table := "__Table", columns := ["Name"],
    whereC := [("Name", "==")] }

/-- The column-metadata statement built in Collection:
SELECT Name, Type FROM __Column WHERE TableName == ?. -/
def columnsStmt : Stmt :=
  { type := SqlType.select, table := "__Column", columns := ["Name", "Type"],
    whereC := [("TableName", "==")] }

/-- The catalog-listing statement built in Collections:
SELECT Name FROM __Table. -/
def collectionsStmt : Stmt :=
  { type := SqlType.select, table := "__Table", columns := ["Name"] }

/-- ASCII model of unicode.ToLower on one character, as used by
strings.ToLower on the catalog identifiers handled here. -/
def lowerChar (c : Char) : Char :=
  if 65 ≤ c.toNat ∧ c.toNat ≤ 90 then Char.ofNat (c.toNat + 32) else c

/-- ASCII model of strings.ToLower. -/
def asciiLower (s : String) : String := String.mk (s.data.map lowerChar)

/-- The decimal digit characters, used to model fmt.Sprintf("%d", ·). -/
def digitChar : Nat → Char
  | 0 => '0' | 1 => '1' | 2 => '2' | 3 => '3' | 4 => '4'
  | 5 => '5' | 6 => '6' | 7 => '7' | 8 => '8' | 9 => '9'
  | _ => '0'

/-- Fuel-driven digit expansion (most significant digit first). -/
def natDigitsGo : Nat → Nat → List Char
  | 0, _ => []
  | f + 1, n =>
    if n < 10 then [digitChar n]
    else natDigitsGo f (n / 10) ++ [digitChar (n % 10)]

/-- Model of fmt.Sprintf("%d", n): the decimal digits of n. -/
def natDigits (n : Nat) : List Char := natDigitsGo (n + 1) n

/-- Model of strings.Replace(s, "?", "$"+digits k, 1): replace the first
occurrence of the neutral placeholder by the k-th positional parameter. -/
def repl : List Char → Nat → List Char
  | [], _ => []
  | c :: rest, k =>
    if c = '?' then '$' :: natDigits k ++ rest else c :: repl rest k

/-- The renumbering loop shared by doExec, doQuery and doQueryRow:
for i := 0; i < l; i++ replace the first remaining "?" by "$(i+1)". -/
def renumber (s : List Char) (l : Nat) : List Char :=
  (List.range l).foldl (fun q i => repl q (i + 1)) s

/-- Number of neutral placeholders `?` in a compiled statement text. -/
def countQ : List Char → Nat
  | [] => 0
  | c :: rest => (if c = '?' then 1 else 0) + countQ rest

/-- Specification-level renumbering: replace the placeholders left to
right by consecutive positional parameters starting at k. -/
def numberFrom : List Char → Nat → List Char
  | [], _ => []
  | c :: rest, k =>
    if c = '?' then '$' :: natDigits k ++ numberFrom rest (k + 1)
    else c :: numberFrom rest k

/-- Iterated single replacements with consecutive parameter numbers,
the proof-friendly form of the renumbering loop. -/
def renA : List Char → Nat → Nat → List Char
  | s, _, 0 => s
  | s, k, n + 1 => renA (repl s k) (k + 1) n

/-- Decimal accumulator step for reading a number back out of the text. -/
def pdStep (a : Nat) (c : Char) : Nat := 10 * a + (c.toNat - 48)

/-- Scanner extracting the positional-parameter tokens `$<digits>` of a
query text, left to right; the state holds the number being read. -/
def parseAux : List Char → Option Nat → List Nat
  | [], none => []
  | [], some v => [v]
  | c :: rest, none =>
    if c = '$' then parseAux rest (some 0) else parseAux rest none
  | c :: rest, some v =>
    if c.isDigit then parseAux rest (some (pdStep v c))
    else if c = '$' then v :: parseAux rest (some 0)
    else v :: parseAux rest none

/-- The positional-parameter tokens of a query text, in order. -/
def parseTokens (s : List Char) : List Nat := parseAux s none

/-- Adjacency condition: a neutral placeholder is never directly followed
by a digit, so the tokens of the renumbered text are unambiguous. -/
def qdRel (a b : Char) : Prop := a = '?' → b.isDigit = false

instance (a b : Char) : Decidable (qdRel a b) :=
  if h : a = '?' then
    if hb : b.isDigit = false then isTrue (fun _ => hb)
    else isFalse (fun f => hb (f h))
  else isTrue (fun e => absurd e h)

/-- Executable form of the adjacency condition on a whole text. -/
def noQDigit : List Char → Bool
  | a :: b :: rest => (!(a == '?' && b.isDigit)) && noQDigit (b :: rest)
  | _ => true

/-- Behaviour record of a live *sql.DB / *sql.Tx collaborator: results of
Begin, Exec, Query, QueryRow and Commit.  Transactions are abstract ids;
Exec/Query results and rows handles are abstract numbers.  QueryRow
returns a *sql.Row, which carries no error. -/
structure Conn where
  beginR : Except DBError Nat
  execR : Nat → List Char → List Nat → Except DBError Nat
  queryR : Nat → List Char → List Nat → Except DBError Nat
  queryRowR : Nat → List Char → List Nat → Nat
  commitR : Nat → Except DBError Unit

/-- I/O events performed by the execution primitives, in order. -/
inductive Ev where
  | debug (q : List Char) (a : List Nat)
  | begin
  | exec (q : List Char) (a : List Nat)
  | query (q : List Char) (a : List Nat)
  | queryRow (q : List Char) (a : List Nat)
  | commit
  deriving DecidableEq

/-- Model of the Source struct of ql/database.go: settings, the nullable
*sql.DB handle, the collections map and the nullable active *sql.Tx. -/
structure Source where
  config : Settings
  session : Option Conn
  collections : List String
  tx : Option Nat

/-- Model of Source.doExec.  `dbg` is the process-wide debug flag,
`compile` is the external sqlgen compiler.  Returns the result together
with the trace of performed I/O. -/
def doExec (dbg : Bool) (compile : Stmt → List Char) (self : Source)
    (stmt : Stmt) (args : List Nat) : Except DBError Nat × List Ev :=
  match self.session with
  | none => (Except.error DBError.notConnected, [])
  | some conn =>
    let query := renumber (compile stmt) args.length
    let dtr := if dbg then [Ev.debug query args] else []
    match self.tx with
    | none =>
      match conn.beginR with
      | Except.error e => (Except.error e, dtr ++ [Ev.begin])
      | Except.ok t =>
        match conn.execR t query args with
        | Except.error e => (Except.error e, dtr ++ [Ev.begin, Ev.exec query args])
        | Except.ok res =>
          match conn.commitR t with
          | Except.error e =>
            (Except.error e, dtr ++ [Ev.begin, Ev.exec query args, Ev.commit])
          | Except.ok _ =>
            (Except.ok res, dtr ++ [Ev.begin, Ev.exec query args, Ev.commit])
    | some t => (conn.execR t query args, dtr ++ [Ev.exec query args])

/-- Model of Source.doQuery (same wrapper with tx.Query). -/
def doQuery (dbg : Bool) (compile : Stmt → List Char) (self : Source)
    (stmt : Stmt) (args : List Nat) : Except DBError Nat × List Ev :=
  match self.session with
  | none => (Except.error DBError.notConnected, [])
  | some conn =>
    let query := renumber (compile stmt) args.length
    let dtr := if dbg then [Ev.debug query args] else []
    match self.tx with
    | none =>
      match conn.beginR with
      | Except.error e => (Except.error e, dtr ++ [Ev.begin])
      | Except.ok t =>
        match conn.queryR t query args with
        | Except.error e => (Except.error e, dtr ++ [Ev.begin, Ev.query query args])
        | Except.ok rows =>
          match conn.commitR t with
          | Except.error e =>
            (Except.error e, dtr ++ [Ev.begin, Ev.query query args, Ev.commit])
          | Except.ok _ =>
            (Except.ok rows, dtr ++ [Ev.begin, Ev.query query args, Ev.commit])
    | some t => (conn.queryR t query args, dtr ++ [Ev.query query args])

/-- Model of Source.doQueryRow.  tx.QueryRow returns no error; the source
then tests the `err` variable, which is still nil from the successful
Begin, so that test is modelled verbatim as a match on a `none` literal. -/
def doQueryRow (dbg : Bool) (compile : Stmt → List Char) (self : Source)
    (stmt : Stmt) (args : List Nat) : Except DBError Nat × List Ev :=
  match self.session with
  | none => (Except.error DBError.notConnected, [])
  | some conn =>
    let query := renumber (compile stmt) args.length
    let dtr := if dbg then [Ev.debug query args] else []
    match self.tx with
    | none =>
      match conn.beginR with
      | Except.error e => (Except.error e, dtr ++ [Ev.begin])
      | Except.ok t =>
        let row := conn.queryRowR t query args
        let err : Option DBError := none
        match err with
        | some e => (Except.error e, dtr ++ [Ev.begin, Ev.queryRow query args])
        | none =>
          match conn.commitR t with
          | Except.error e =>
            (Except.error e, dtr ++ [Ev.begin, Ev.queryRow query args, Ev.commit])
          | Except.ok _ =>
            (Except.ok row, dtr ++ [Ev.begin, Ev.queryRow query args, Ev.commit])
    | some t => (Except.ok (conn.queryRowR t query args), dtr ++ [Ev.queryRow query args])

/-- World state for session management: a supply of connections handed
out by consecutive sql.Open calls (openC counts the calls made). -/
structure World where
  openS : Nat → Except DBError Conn
  openC : Nat

/-- Model of sql.Open(`ql`, database): draw the next connection from the
supply. -/
def sqlOpen (w : World) : Except DBError Conn × World :=
  (w.openS w.openC, { w with openC := w.openC + 1 })

/-- The Go zero value &Source{}. -/
def emptySource : Source :=
  { config := {}, session := none, collections := [], tx := none }

/-- Model of Source.Open: reject an empty database name, otherwise open a
connection and store it in the session field. -/
def Open (self : Source) (w : World) : Source × World × Option DBError :=
  if self.config.database = "" then (self, w, some DBError.missingDatabaseName)
  else
    match sqlOpen w with
    | (Except.error e, w2) => ({ self with session := none }, w2, some e)
    | (Except.ok c, w2) => ({ self with session := some c }, w2, none)

/-- Model of Source.Setup: store the settings, reset the collections map
and open the connection. -/
def Setup (self : Source) (config : Settings) (w : World) :
    Source × World × Option DBError :=
  Open { self with config := config, collections := [] } w

/-- Model of Source.clone: src := &Source{}; src.Setup(self.config) with
its return value discarded; then src.Open() decides the outcome.  The
receiver is not modified. -/
def clone (self : Source) (w : World) : World × Except DBError Source :=
  match Setup emptySource self.config w with
  | (src1, w1, _) =>
    match Open src1 w1 with
    | (_, w2, some e) => (w2, Except.error e)
    | (src2, w2, none) => (w2, Except.ok src2)

/-- Model of the Tx handle: a transaction bound to its cloned session. -/
structure Tx where
  source : Source

/-- Model of Source.Transaction: clone the session, begin a transaction
on the clone's connection, store it in the clone's tx field and hand back
a handle bound to the clone.  The receiver is returned unchanged, as the
method assigns none of its fields.  (A nil clone session is impossible
after a successful clone; that branch models the Go nil dereference as a
notConnected error.) -/
def Transaction (self : Source) (w : World) :
    Source × World × Except DBError Tx :=
  match clone self w with
  | (w1, Except.error e) => (self, w1, Except.error e)
  | (w1, Except.ok cl) =>
    match cl.session with
    | none => (self, w1, Except.error DBError.notConnected)
    | some c =>
      match c.beginR with
      | Except.error e => (self, w1, Except.error e)
      | Except.ok t => (self, w1, Except.ok ⟨{ cl with tx := some t }⟩)

/-- A catalog result row as consumed by the introspection queries: the
(Name, Type) column pair (tableExists reads only the first component). -/
abbrev RowB : Type := String × String

/-- The `self.doQuery` capability as seen by the introspection functions:
a statement and its bound arguments yield rows or an error. -/
abbrev RunQuery : Type := Stmt → List String → Except DBError (List RowB)

/-- A record of one issued catalog query: the statement and its bound
arguments. -/
abbrev QueryLog : Type := Stmt × List String

/-- Model of Source.tableExists: for each name, run the existence check;
a failing query and an empty result set are both reported as
db.ErrCollectionDoesNotExists. -/
def tableExists (runQuery : RunQuery) : List String →
    Except DBError Unit × List QueryLog
  | [] => (Except.ok (), [])
  | name :: rest =>
    match runQuery tableExistsStmt [name] with
    | Except.error _ =>
      (Except.error DBError.collectionDoesNotExists, [(tableExistsStmt, [name])])
    | Except.ok rows =>
      if rows.isEmpty then
        (Except.error DBError.collectionDoesNotExists, [(tableExistsStmt, [name])])
      else
        match tableExists runQuery rest with
        | (r, logs) => (r, (tableExistsStmt, [name]) :: logs)

/-- Model of the columnSchema_t rows read from the __Column catalog. -/
structure columnSchema_t where
  columnName : String
  dataType : String
  deriving DecidableEq

/-- Modelled from the spec: sqlutil.FetchRows (defined outside the
provided source) decodes the (Name, Type) catalog rows into
columnSchema_t records, which are consumed immediately. -/
def fetchRows (rows : List RowB) : List columnSchema_t :=
  rows.map (fun r => ⟨r.1, r.2⟩)

/-- Modelled from the spec: the Table / CollectionHandle record (its Go
type lives outside the provided source) binding the stored names to the
PrimaryKey convention and the ColumnTypes map; the back pointer to the
session is omitted. -/
structure Table where
  names : List String
  primaryKey : String := ""
  columnTypes : List (String × Kind) := []
  deriving DecidableEq

/-- Model of strings.SplitN(s, " ", 2) on character lists: at most two
chunks, split at the first space. -/
def splitN2L : List Char → List (List Char)
  | [] => [[]]
  | c :: rest =>
    if c = ' ' then [[], rest]
    else
      match splitN2L rest with
      | [] => [[c]]
      | x :: xs => (c :: x) :: xs

/-- Model of strings.SplitN(name, " ", 2). -/
def splitN2 (s : String) : List String := (splitN2L s.data).map String.mk

/-- Model of the datatype-guessing switch of Collection, applied to the
already lower-cased catalog type string; the default branch yields
reflect.String. -/
def guessKind (dtype : String) : Kind :=
  if dtype = "int" then Kind.Int
  else if dtype = "int8" then Kind.Int8
  else if dtype = "int16" then Kind.Int16
  else if dtype = "int32" ∨ dtype = "rune" then Kind.Int32
  else if dtype = "int64" then Kind.Int64
  else if dtype = "uint" then Kind.UInt
  else if dtype = "uint8" then Kind.UInt8
  else if dtype = "uint16" then Kind.UInt16
  else if dtype = "uint32" then Kind.UInt32
  else if dtype = "uint64" then Kind.UInt64
  else if dtype = "float64" then Kind.Float64
  else if dtype = "float32" then Kind.Float32
  else if dtype = "time" then timeType
  else Kind.String

/-- The lower-cased type names recognised by the switch in Collection. -/
def knownTypeNames : List String :=
  ["int", "int8", "int16", "int32", "rune", "int64",
   "uint", "uint8", "uint16", "uint32", "uint64",
   "float64", "float32", "time"]

/-- The type table as enumerated by the claim under scrutiny: integer
widths 8/16/32/64 signed and unsigned, the floating widths and time. -/
def claimTypeTable : List String :=
  ["int8", "int16", "int32", "int64",
   "uint8", "uint16", "uint32", "uint64",
   "float32", "float64", "time"]

/-- Go-map insertion on an association list: overwrite the existing
binding or append a new one. -/
def mapInsert : List (String × Kind) → String → Kind → List (String × Kind)
  | [], k, v => [(k, v)]
  | (k2, v2) :: rest, k, v =>
    if k2 = k then (k, v) :: rest else (k2, v2) :: mapInsert rest k v

/-- Lookup in the association-list model of the ColumnTypes map. -/
def lookupKV : List (String × Kind) → String → Option Kind
  | [], _ => none
  | (k2, v2) :: rest, k => if k2 = k then some v2 else lookupKV rest k

/-- The ColumnTypes-building loop of Collection: lower-case the column
name and type, guess the kind and store it under the lower-cased name. -/
def buildColumnTypes (cols : List columnSchema_t) : List (String × Kind) :=
  cols.foldl
    (fun m c => mapInsert m (asciiLower c.columnName)
      (guessKind (asciiLower c.dataType))) []

/-- The per-name loop of Source.Collection: split off the first token,
check existence, fetch the column metadata and rebuild the ColumnTypes
map.  The stored names of the handle stay the original arguments. -/
def collectionGo (runQuery : RunQuery) (col : Table) :
    List String → Except DBError Table × List QueryLog
  | [] => (Except.ok col, [])
  | name :: rest =>
    match splitN2 name with
    | [] => collectionGo runQuery col rest
    | tok :: _ =>
      match tableExists runQuery [tok] with
      | (Except.error e, logs) => (Except.error e, logs)
      | (Except.ok _, logs) =>
        match runQuery columnsStmt [tok] with
        | Except.error e => (Except.error e, logs ++ [(columnsStmt, [tok])])
        | Except.ok rows =>
          let columns := fetchRows rows
          match collectionGo runQuery
              { col with columnTypes := buildColumnTypes columns } rest with
          | (r, logs2) => (r, logs ++ [(columnsStmt, [tok])] ++ logs2)

/-- Model of Source.Collection: reject an empty name list, then resolve
each requested name with PrimaryKey fixed to the `id` convention. -/
def Collection (runQuery : RunQuery) (names : List String) :
    Except DBError Table × List QueryLog :=
  if names.isEmpty then (Except.error DBError.missingCollectionName, [])
  else collectionGo runQuery
    { names := names, primaryKey := "id", columnTypes := [] } names

/-- One catalog row as consumed by Collections: rows.Scan either stores a
new string into the loop variable or fails with an abstract code, leaving
the variable untouched. -/
abbrev ScanRow : Type := Except Nat String

/-- The scan loop of Source.Collections: the Scan error is discarded and
the current value of the loop variable is appended in every iteration. -/
def scanLoop (current : String) : List ScanRow → List String
  | [] => []
  | Except.ok s :: rest => s :: scanLoop s rest
  | Except.error _ :: rest => current :: scanLoop current rest

/-- Model of Source.Collections: list the __Table catalog and scan each
row, starting from the zero value of the loop variable. -/
def Collections (runQuery : Stmt → Except DBError (List ScanRow)) :
    Except DBError (List String) :=
  match runQuery collectionsStmt with
  | Except.error e => Except.error e
  | Except.ok rows => Except.ok (scanLoop "" rows)

/-- A connection behaviour on which every engine call succeeds, used to
instantiate the execution-wrapper theorems; n seeds the transaction id. -/
def okConn (n : Nat) : Conn :=
  { beginR := Except.ok n,
    execR := fun _ _ _ => Except.ok 42,
    queryR := fun _ _ _ => Except.ok 3,
    queryRowR := fun _ _ _ => 5,
    commitR := fun _ => Except.ok () }

/-- A compiler stub emitting a fixed text with one neutral placeholder. -/
def oneHoleCompile : Stmt → List Char := fun _ => "x == ?".data

/-- A world whose open calls all succeed, handing out okConn values. -/
def w0 : World := { openS := fun n => Except.ok (okConn n), openC := 0 }

/-- A configured, not yet connected session over the database test.db. -/
def src0 : Source :=
  { config := { database := "test.db" }, session := none,
    collections := [], tx := none }

/-- A catalog behaviour answering the __Table existence check with the
rows tbl and the __Column metadata query with the rows cols. -/
def rqCatalog (tbl : List RowB) (cols : List RowB) : RunQuery :=
  fun st _ => if st.table = "__Table" then Except.ok tbl else Except.ok cols

/-- Length of the Collections scan loop output: one entry per row. -/
theorem scanLoop_length (rows : List ScanRow) :
    ∀ cur, (scanLoop cur rows).length = rows.length := by
  induction rows with
  | nil => intro cur; rfl
  | cons row rest ih =>
    intro cur
    cases row with
    | ok s => simp [scanLoop, ih]
    | error e => simp [scanLoop, ih]

/-- Claim C4: on a session whose underlying connection handle is nil,
each of doExec, doQuery and doQueryRow returns db.ErrNotConnected at once
with an empty I/O trace: no transaction is begun, no statement is sent,
and the compiled text is never produced. -/
theorem c4_not_connected (dbg : Bool) (compile : Stmt → List Char)
    (cfg : Settings) (cols : List String) (tx : Option Nat)
    (stmt : Stmt) (args : List Nat) :
    doExec dbg compile ⟨cfg, none, cols, tx⟩ stmt args =
      (Except.error DBError.notConnected, []) ∧
    doQuery dbg compile ⟨cfg, none, cols, tx⟩ stmt args =
      (Except.error DBError.notConnected, []) ∧
    doQueryRow dbg compile ⟨cfg, none, cols, tx⟩ stmt args =
      (Except.error DBError.notConnected, []) :=
  ⟨rfl, rfl, rfl⟩

/-- Claim C2: doExec on a session with no active explicit transaction
opens a fresh transaction; a Begin failure is returned with no statement
executed and no commit attempted; a statement failure is returned without
attempting commit; a Commit failure is returned, discarding the
statement's own result; only when statement and commit both succeed is
the statement's result returned. -/
theorem c2_doExec_autocommit (dbg : Bool) (compile : Stmt → List Char)
    (cfg : Settings) (cols : List String) (conn : Conn)
    (stmt : Stmt) (args : List Nat) :
    (∀ e, conn.beginR = Except.error e →
      (doExec dbg compile ⟨cfg, some conn, cols, none⟩ stmt args).fst =
        Except.error e ∧
      (∀ q a, Ev.exec q a ∉
        (doExec dbg compile ⟨cfg, some conn, cols, none⟩ stmt args).snd) ∧
      Ev.commit ∉
        (doExec dbg compile ⟨cfg, some conn, cols, none⟩ stmt args).snd) ∧
    (∀ t e, conn.beginR = Except.ok t →
      conn.execR t (renumber (compile stmt) args.length) args = Except.error e →
      (doExec dbg compile ⟨cfg, some conn, cols, none⟩ stmt args).fst =
        Except.error e ∧
      Ev.commit ∉
        (doExec dbg compile ⟨cfg, some conn, cols, none⟩ stmt args).snd) ∧
    (∀ t r e, conn.beginR = Except.ok t →
      conn.execR t (renumber (compile stmt) args.length) args = Except.ok r →
      conn.commitR t = Except.error e →
      (doExec dbg compile ⟨cfg, some conn, cols, none⟩ stmt args).fst =
        Except.error e) ∧
    (∀ t r u, conn.beginR = Except.ok t →
      conn.execR t (renumber (compile stmt) args.length) args = Except.ok r →
      conn.commitR t = Except.ok u →
      (doExec dbg compile ⟨cfg, some conn, cols, none⟩ stmt args).fst =
        Except.ok r) := by
  refine ⟨fun e h => ?_, fun t e hb hx => ?_,
    fun t r e hb hx hc => ?_, fun t r u hb hx hc => ?_⟩ <;>
    cases dbg <;> simp [doExec, *]

/-- Claim C2 witness: with a connection on which Begin, Exec and Commit
all succeed, doExec returns the statement's own result. -/
theorem c2_witness :
    (doExec false oneHoleCompile ⟨{}, some (okConn 1), [], none⟩
      tableExistsStmt [7]).fst = Except.ok 42 :=
  (c2_doExec_autocommit false oneHoleCompile {} [] (okConn 1)
    tableExistsStmt [7]).2.2.2 1 42 () rfl rfl rfl

/-- Claim C9: in the autocommit path of doQueryRow, once the implicit
transaction opens, the error tested after QueryRow is still nil, so the
only error doQueryRow can still return is the commit error; on a
successful commit the row is handed back after the commit event. -/
theorem c9_queryRow_no_statement_error (dbg : Bool)
    (compile : Stmt → List Char) (cfg : Settings) (cols : List String)
    (conn : Conn) (stmt : Stmt) (args : List Nat) (t : Nat)
    (hb : conn.beginR = Except.ok t) :
    (∀ e, (doQueryRow dbg compile ⟨cfg, some conn, cols, none⟩ stmt args).fst =
        Except.error e → conn.commitR t = Except.error e) ∧
    (∀ u, conn.commitR t = Except.ok u →
      doQueryRow dbg compile ⟨cfg, some conn, cols, none⟩ stmt args =
        (Except.ok (conn.queryRowR t (renumber (compile stmt) args.length) args),
         (if dbg then [Ev.debug (renumber (compile stmt) args.length) args] else []) ++
           [Ev.begin, Ev.queryRow (renumber (compile stmt) args.length) args,
            Ev.commit])) := by
  constructor
  · intro e h
    rcases hc : conn.commitR t with e2 | u
    · simp [doQueryRow, hb, hc] at h
      rw [h]
    · simp [doQueryRow, hb, hc] at h
  · intro u hu
    cases dbg <;> simp [doQueryRow, hb, hu]

/-- Claim C9 witness: with Begin and Commit succeeding, doQueryRow hands
back the row produced by QueryRow, with the commit in the trace. -/
theorem c9_witness :
    doQueryRow false oneHoleCompile ⟨{}, some (okConn 1), [], none⟩
      tableExistsStmt [7] =
      (Except.ok 5,
       [Ev.begin, Ev.queryRow (renumber (oneHoleCompile tableExistsStmt) 1) [7],
        Ev.commit]) :=
  (c9_queryRow_no_statement_error false oneHoleCompile {} [] (okConn 1)
    tableExistsStmt [7] 1 rfl).2 () rfl

/-- Claim C8: Transaction clones the session (same configuration, a
freshly opened connection of its own, empty collections map, no active
transaction), begins a transaction on the clone's connection, stores it
in the clone and returns a handle bound to the clone; the receiver is
returned unchanged and two sql.Open calls are consumed (Setup opens once,
clone opens again). -/
theorem c8_transaction_clone (self : Source) (w : World) (c1 c2 : Conn)
    (t : Nat) (hdb : self.config.database ≠ "")
    (h1 : w.openS w.openC = Except.ok c1)
    (h2 : w.openS (w.openC + 1) = Except.ok c2)
    (hb : c2.beginR = Except.ok t) :
    Transaction self w =
      (self, { w with openC := w.openC + 2 },
       Except.ok ⟨{ config := self.config, session := some c2,
                    collections := [], tx := some t }⟩) := by
  simp [Transaction, clone, Setup, Open, sqlOpen, emptySource, hdb, h1, h2, hb]

/-- Claim C8 witness: on a concrete configured session and a world of
successful opens, Transaction hands back a handle bound to the second
freshly opened connection while the original session is unchanged. -/
theorem c8_witness :
    Transaction src0 w0 =
      (src0, { w0 with openC := 2 },
       Except.ok ⟨{ config := src0.config, session := some (okConn 1),
                    collections := [], tx := some 1 }⟩) :=
  c8_transaction_clone src0 w0 (okConn 0) (okConn 1) 1 (by decide) rfl rfl rfl

/-- Claim C10: when the initial catalog query of Collections succeeds,
the function returns a nil error no matter how individual row scans fare;
each row contributes exactly one (possibly stale) entry, and a failed
scan appends the loop variable's previous value. -/
theorem c10_collections_scan_errors_discarded :
    (∀ (runQuery : Stmt → Except DBError (List ScanRow)) rows,
      runQuery collectionsStmt = Except.ok rows →
      ∃ l, Collections runQuery = Except.ok l ∧ l.length = rows.length) ∧
    (∀ cur e rest, scanLoop cur (Except.error e :: rest) =
      cur :: scanLoop cur rest) := by
  constructor
  · intro runQuery rows h
    refine ⟨scanLoop "" rows, ?_, scanLoop_length rows ""⟩
    simp [Collections, h]
  · intro cur e rest; rfl

/-- Claim C10 witness: a three-row result with a failing middle scan
still yields a nil error and three entries. -/
theorem c10_witness :
    ∃ l, Collections (fun _ =>
        Except.ok [Except.ok "t1", Except.error 3, Except.ok "t2"]) =
      Except.ok l ∧ l.length = 3 :=
  c10_collections_scan_errors_discarded.1 _
    [Except.ok "t1", Except.error 3, Except.ok "t2"] rfl

/-- Claim C1 counterexample: a failure of the existence-check query is
not reported distinctly from non-existence — tableExists maps an engine
error of the catalog query to the very same db.ErrCollectionDoesNotExists
it produces for an empty result set. -/
theorem c1_counterexample :
    (tableExists (fun _ _ => Except.error (DBError.engine 7)) ["t"]).fst =
      Except.error DBError.collectionDoesNotExists ∧
    (tableExists (fun _ _ => Except.ok []) ["t"]).fst =
      Except.error DBError.collectionDoesNotExists :=
  ⟨rfl, rfl⟩

/-- Claim C1 (amended): resolving an absent collection name over a
healthy connection yields db.ErrCollectionDoesNotExists and never a
generic error; however a failure of the existence-check query itself is
reported with that same error, not distinctly, and Collection propagates
it. -/
theorem c1_amended_resolution (runQuery : RunQuery) (name : String) :
    (runQuery tableExistsStmt [name] = Except.ok [] →
      (tableExists runQuery [name]).fst =
        Except.error DBError.collectionDoesNotExists) ∧
    (∀ e, runQuery tableExistsStmt [name] = Except.error e →
      (tableExists runQuery [name]).fst =
        Except.error DBError.collectionDoesNotExists) ∧
    (∀ tok rest, splitN2 name = tok :: rest →
      (tableExists runQuery [tok]).fst =
        Except.error DBError.collectionDoesNotExists →
      (Collection runQuery [name]).fst =
        Except.error DBError.collectionDoesNotExists) := by
  refine ⟨fun h => ?_, fun e h => ?_, fun tok rest hs ht => ?_⟩
  · simp [tableExists, h]
  · simp [tableExists, h]
  · rcases hp : tableExists runQuery [tok] with ⟨r, logs⟩
    rw [hp] at ht
    simp only at ht
    subst ht
    simp [Collection, collectionGo, hs, hp]

/-- Claim C1 witness: a healthy connection reporting zero catalog rows
for a missing table makes tableExists fail with
db.ErrCollectionDoesNotExists. -/
theorem c1_witness :
    (tableExists (fun _ _ => Except.ok []) ["missing_table"]).fst =
      Except.error DBError.collectionDoesNotExists :=
  (c1_amended_resolution (fun _ _ => Except.ok []) "missing_table").1 rfl

/-- Claim C5 counterexample: the switch also maps the unsized names and
the rune alias, none of which are in the claim's enumerated table, to
non-string kinds — so not every name outside that table falls back to the
text kind. -/
theorem c5_counterexample :
    "int" ∉ claimTypeTable ∧ guessKind (asciiLower "int") = Kind.Int ∧
    "uint" ∉ claimTypeTable ∧ guessKind (asciiLower "uint") = Kind.UInt ∧
    "rune" ∉ claimTypeTable ∧ guessKind (asciiLower "rune") = Kind.Int32 ∧
    Kind.Int ≠ Kind.String := by
  decide

/-- Claim C5 (amended): with the table enlarged by the unsized int and
uint and the rune alias, the fallback holds — any type string whose
lower-cased form is not a recognised name resolves to the text kind, so
type resolution never fails. -/
theorem c5_amended_fallback (s : String)
    (h : asciiLower s ∉ knownTypeNames) :
    guessKind (asciiLower s) = Kind.String := by
  have h1 : asciiLower s ≠ "int" := fun e => h (by rw [e]; decide)
  have h2 : asciiLower s ≠ "int8" := fun e => h (by rw [e]; decide)
  have h3 : asciiLower s ≠ "int16" := fun e => h (by rw [e]; decide)
  have h4 : asciiLower s ≠ "int32" := fun e => h (by rw [e]; decide)
  have h5 : asciiLower s ≠ "rune" := fun e => h (by rw [e]; decide)
  have h6 : asciiLower s ≠ "int64" := fun e => h (by rw [e]; decide)
  have h7 : asciiLower s ≠ "uint" := fun e => h (by rw [e]; decide)
  have h8 : asciiLower s ≠ "uint8" := fun e => h (by rw [e]; decide)
  have h9 : asciiLower s ≠ "uint16" := fun e => h (by rw [e]; decide)
  have h10 : asciiLower s ≠ "uint32" := fun e => h (by rw [e]; decide)
  have h11 : asciiLower s ≠ "uint64" := fun e => h (by rw [e]; decide)
  have h12 : asciiLower s ≠ "float64" := fun e => h (by rw [e]; decide)
  have h13 : asciiLower s ≠ "float32" := fun e => h (by rw [e]; decide)
  have h14 : asciiLower s ≠ "time" := fun e => h (by rw [e]; decide)
  simp [guessKind, h1, h2, h3, h4, h5, h6, h7, h8, h9, h10, h11, h12, h13, h14]

/-- Claim C5 witness: an explicit string type is not in the recognised
table and resolves to the text kind. -/
theorem c5_witness :
    asciiLower "string" ∉ knownTypeNames ∧
    guessKind (asciiLower "string") = Kind.String :=
  ⟨by decide, c5_amended_fallback "string" (by decide)⟩

/-- SplitN leaves a space-free string whole. -/
theorem splitN2L_no_space (l : List Char) (h : ∀ c ∈ l, c ≠ ' ') :
    splitN2L l = [l] := by
  induction l with
  | nil => rfl
  | cons c rest ih =>
    have hc : c ≠ ' ' := h c (List.mem_cons_self c rest)
    have hr := ih (fun x hx => h x (List.mem_cons_of_mem c hx))
    simp [splitN2L, hc, hr]

/-- SplitN cuts at the first space: the first chunk is the space-free
prefix, the second the whole remainder. -/
theorem splitN2L_space (tok rest : List Char) (h : ∀ c ∈ tok, c ≠ ' ') :
    splitN2L (tok ++ ' ' :: rest) = [tok, rest] := by
  induction tok with
  | nil => simp [splitN2L]
  | cons c tok2 ih =>
    have hc : c ≠ ' ' := h c (List.mem_cons_self c tok2)
    have hr := ih (fun x hx => h x (List.mem_cons_of_mem c hx))
    simp [splitN2L, hc, hr]

/-- A successful, non-empty existence check for a single name. -/
theorem tableExists_single_ok (runQuery : RunQuery) (n : String)
    (rows : List RowB) (h : runQuery tableExistsStmt [n] = Except.ok rows)
    (hne : rows ≠ []) :
    tableExists runQuery [n] = (Except.ok (), [(tableExistsStmt, [n])]) := by
  cases rows with
  | nil => exact absurd rfl hne
  | cons r rs => simp [tableExists, h]

/-- Looking up the key just inserted yields the inserted value. -/
theorem lookupKV_mapInsert_self (m : List (String × Kind)) (k : String)
    (v : Kind) : lookupKV (mapInsert m k v) k = some v := by
  induction m with
  | nil => simp [mapInsert, lookupKV]
  | cons p rest ih =>
    by_cases h : p.1 = k
    · simp [mapInsert, h, lookupKV]
    · simp [mapInsert, h, lookupKV, ih]

/-- Insertion leaves lookups of other keys unchanged. -/
theorem lookupKV_mapInsert_ne (m : List (String × Kind)) (k k2 : String)
    (v : Kind) (h : k2 ≠ k) :
    lookupKV (mapInsert m k v) k2 = lookupKV m k2 := by
  have hne : k ≠ k2 := fun e => h e.symm
  induction m with
  | nil => simp [mapInsert, lookupKV, hne]
  | cons p rest ih =>
    rcases p with ⟨a, b⟩
    by_cases hp : a = k
    · simp [mapInsert, hp, lookupKV, hne]
    · simp only [mapInsert, hp, if_false, lookupKV, ite_false]
      by_cases hp2 : a = k2
      · simp [lookupKV, hp2]
      · simp [lookupKV, hp2, ih]

/-- Every binding reachable from the ColumnTypes-building fold either
comes from one of the column rows or was already in the accumulator. -/
theorem buildAux_mem (cols : List columnSchema_t) :
    ∀ (m : List (String × Kind)) (k : String) (v : Kind),
    lookupKV (cols.foldl (fun m c => mapInsert m (asciiLower c.columnName)
      (guessKind (asciiLower c.dataType))) m) k = some v →
    (∃ c, c ∈ cols ∧ k = asciiLower c.columnName ∧
      v = guessKind (asciiLower c.dataType)) ∨ lookupKV m k = some v := by
  induction cols with
  | nil => intro m k v h; exact Or.inr h
  | cons c0 rest ih =>
    intro m k v h
    rcases ih _ k v h with hin | hm
    · rcases hin with ⟨c, hc, hk, hv⟩
      exact Or.inl ⟨c, List.mem_cons_of_mem c0 hc, hk, hv⟩
    · by_cases hk : k = asciiLower c0.columnName
      · subst hk
        rw [lookupKV_mapInsert_self] at hm
        exact Or.inl ⟨c0, List.mem_cons_self c0 rest, rfl, (Option.some.injEq _ _ ▸ hm).symm⟩
      · rw [lookupKV_mapInsert_ne _ _ _ _ hk] at hm
        exact Or.inr hm

/-- The fold preserves the presence of a key. -/
theorem buildAux_isSome (cols : List columnSchema_t) :
    ∀ (m : List (String × Kind)) (k : String),
    (lookupKV m k).isSome = true →
    (lookupKV (cols.foldl (fun m c => mapInsert m (asciiLower c.columnName)
      (guessKind (asciiLower c.dataType))) m) k).isSome = true := by
  induction cols with
  | nil => intro m k h; exact h
  | cons c0 rest ih =>
    intro m k h
    apply ih
    by_cases hk : k = asciiLower c0.columnName
    · subst hk; rw [lookupKV_mapInsert_self]; rfl
    · rw [lookupKV_mapInsert_ne _ _ _ _ hk]; exact h

/-- Every key of the built ColumnTypes map is the lower-cased column name
of one of the column rows, bound to the guessed kind of that row. -/
theorem buildColumnTypes_key_src (cols : List columnSchema_t) (k : String)
    (v : Kind) (h : lookupKV (buildColumnTypes cols) k = some v) :
    ∃ c, c ∈ cols ∧ k = asciiLower c.columnName ∧
      v = guessKind (asciiLower c.dataType) := by
  rcases buildAux_mem cols [] k v h with hin | hm
  · exact hin
  · simp [lookupKV] at hm

/-- Every column row is reachable in the built map under its lower-cased
name. -/
theorem buildColumnTypes_mem_isSome (cols : List columnSchema_t) :
    ∀ (m : List (String × Kind)) (c : columnSchema_t), c ∈ cols →
    (lookupKV (cols.foldl (fun m c => mapInsert m (asciiLower c.columnName)
      (guessKind (asciiLower c.dataType))) m) (asciiLower c.columnName)).isSome
      = true := by
  induction cols with
  | nil => intro m c h; cases h
  | cons c0 rest ih =>
    intro m c h
    rcases List.mem_cons.mp h with he | ht
    · subst he
      rw [List.foldl_cons]
      apply buildAux_isSome
      rw [lookupKV_mapInsert_self]; rfl
    · rw [List.foldl_cons]
      exact ih _ c ht

/-- Resolution of a single collection name whose first token passes the
existence check: the handle keeps the original name, PrimaryKey is the
id convention, ColumnTypes is built from the fetched rows, and exactly
the two catalog queries are issued, both with the first token as their
bound argument. -/
theorem collection_single (runQuery : RunQuery) (name tok : String)
    (rows crows : List RowB) (restc : List String)
    (hs : splitN2 name = tok :: restc)
    (h1 : runQuery tableExistsStmt [tok] = Except.ok rows) (hne : rows ≠ [])
    (h2 : runQuery columnsStmt [tok] = Except.ok crows) :
    Collection runQuery [name] =
      (Except.ok { names := [name], primaryKey := "id",
                   columnTypes := buildColumnTypes (fetchRows crows) },
       [(tableExistsStmt, [tok]), (columnsStmt, [tok])]) := by
  have ht := tableExists_single_ok runQuery tok rows h1 hne
  simp [Collection, collectionGo, hs, ht, h2]

/-- Claim C6: the handle produced by Collection maps only lower-cased
keys — every binding of ColumnTypes stems from a catalog column row, its
key being the lower-cased catalog column name and its value the kind
guessed from the row's type; every catalog row is reachable under its
lower-cased name, so a lookup by the lower-cased query key succeeds
regardless of the casing the catalog reported. -/
theorem c6_columnTypes_lowercased (runQuery : RunQuery) (name : String)
    (rows crows : List RowB) (hsp : ∀ c ∈ name.data, c ≠ ' ')
    (h1 : runQuery tableExistsStmt [name] = Except.ok rows) (hne : rows ≠ [])
    (h2 : runQuery columnsStmt [name] = Except.ok crows) :
    Collection runQuery [name] =
      (Except.ok { names := [name], primaryKey := "id",
                   columnTypes := buildColumnTypes (fetchRows crows) },
       [(tableExistsStmt, [name]), (columnsStmt, [name])]) ∧
    (∀ k v, lookupKV (buildColumnTypes (fetchRows crows)) k = some v →
      ∃ c, c ∈ fetchRows crows ∧ k = asciiLower c.columnName ∧
        v = guessKind (asciiLower c.dataType)) ∧
    (∀ c, c ∈ fetchRows crows →
      (lookupKV (buildColumnTypes (fetchRows crows))
        (asciiLower c.columnName)).isSome = true) := by
  have hs : splitN2 name = [name] := by
    unfold splitN2
    rw [splitN2L_no_space name.data hsp]
    rfl
  refine ⟨collection_single runQuery name name rows crows [] hs h1 hne h2,
    fun k v h => buildColumnTypes_key_src (fetchRows crows) k v h,
    fun c hc => buildColumnTypes_mem_isSome (fetchRows crows) [] c hc⟩

/-- Claim C6 witness: a catalog reporting mixed-case column names yields
a handle whose ColumnTypes keys are the lower-cased names, with both
columns reachable under those keys. -/
theorem c6_witness :
    Collection (rqCatalog [("Users", "")] [("ID", "int64"), ("Name", "string")])
      ["Users"] =
      (Except.ok { names := ["Users"], primaryKey := "id",
                   columnTypes := buildColumnTypes
                     (fetchRows [("ID", "int64"), ("Name", "string")]) },
       [(tableExistsStmt, ["Users"]), (columnsStmt, ["Users"])]) ∧
    (∀ k v, lookupKV (buildColumnTypes
        (fetchRows [("ID", "int64"), ("Name", "string")])) k = some v →
      ∃ c, c ∈ fetchRows [("ID", "int64"), ("Name", "string")] ∧
        k = asciiLower c.columnName ∧ v = guessKind (asciiLower c.dataType)) ∧
    (∀ c, c ∈ fetchRows [("ID", "int64"), ("Name", "string")] →
      (lookupKV (buildColumnTypes (fetchRows [("ID", "int64"), ("Name", "string")]))
        (asciiLower c.columnName)).isSome = true) :=
  c6_columnTypes_lowercased
    (rqCatalog [("Users", "")] [("ID", "int64"), ("Name", "string")])
    "Users" [("Users", "")] [("ID", "int64"), ("Name", "string")]
    (by decide) rfl (by decide) rfl

/-- Claim C7: for a collection name carrying a trailing modifier after a
space, only the first space-separated token is used as the table
identifier — both catalog queries are issued with that token as their
bound argument — while the handle's stored names sequence keeps the full
original string. -/
theorem c7_first_token (runQuery : RunQuery) (name tok rest2 : String)
    (rows crows : List RowB)
    (htok : name.data = tok.data ++ ' ' :: rest2.data)
    (hsp : ∀ c ∈ tok.data, c ≠ ' ')
    (h1 : runQuery tableExistsStmt [tok] = Except.ok rows) (hne : rows ≠ [])
    (h2 : runQuery columnsStmt [tok] = Except.ok crows) :
    Collection runQuery [name] =
      (Except.ok { names := [name], primaryKey := "id",
                   columnTypes := buildColumnTypes (fetchRows crows) },
       [(tableExistsStmt, [tok]), (columnsStmt, [tok])]) := by
  have hs : splitN2 name = [tok, rest2] := by
    unfold splitN2
    rw [htok, splitN2L_space tok.data rest2.data hsp]
    rfl
  exact collection_single runQuery name tok rows crows [rest2] hs h1 hne h2

/-- Claim C7 witness: resolving "tbl AS t" queries the catalog for "tbl"
only, while the handle stores the full "tbl AS t". -/
theorem c7_witness :
    Collection (rqCatalog [("tbl", "")] [("id", "int")]) ["tbl AS t"] =
      (Except.ok { names := ["tbl AS t"], primaryKey := "id",
                   columnTypes := buildColumnTypes (fetchRows [("id", "int")]) },
       [(tableExistsStmt, ["tbl"]), (columnsStmt, ["tbl"])]) :=
  c7_first_token (rqCatalog [("tbl", "")] [("id", "int")])
    "tbl AS t" "tbl" "AS t" [("tbl", "")] [("id", "int")]
    (by decide) (by decide) rfl (by decide) rfl

/-- The digit expansion is independent of the fuel once it suffices. -/
theorem natDigitsGo_irrel (n : Nat) :
    ∀ f g, n < f → n < g → natDigitsGo f n = natDigitsGo g n := by
  induction n using Nat.strong_induction_on with
  | _ n ih =>
    intro f g hf hg
    cases f with
    | zero => omega
    | succ f2 =>
      cases g with
      | zero => omega
      | succ g2 =>
        by_cases h10 : n < 10
        · simp [natDigitsGo, h10]
        · simp only [natDigitsGo, if_neg h10]
          have hd : n / 10 < n := by omega
          rw [ih (n / 10) hd f2 g2 (by omega) (by omega)]

/-- Unfolding rule for the decimal digits. -/
theorem natDigits_unfold (n : Nat) :
    natDigits n = if n < 10 then [digitChar n]
      else natDigits (n / 10) ++ [digitChar (n % 10)] := by
  show natDigitsGo (n + 1) n = _
  by_cases h : n < 10
  · simp [natDigitsGo, h]
  · simp only [natDigitsGo, if_neg h]
    rw [natDigitsGo_irrel (n / 10) n (n / 10 + 1) (by omega) (by omega)]
    rfl

/-- Each digit character is a digit. -/
theorem digitChar_isDigit (n : Nat) (h : n < 10) :
    (digitChar n).isDigit = true := by
  interval_cases n <;> decide

/-- Reading one emitted digit back restores its value. -/
theorem pdStep_digitChar (a m : Nat) (h : m < 10) :
    pdStep a (digitChar m) = 10 * a + m := by
  interval_cases m <;> rfl

/-- Reading the emitted digits of n back restores n. -/
theorem natDigits_foldl (n : Nat) :
    ∀ a, List.foldl pdStep a (natDigits n) =
      a * 10 ^ (natDigits n).length + n := by
  induction n using Nat.strong_induction_on with
  | _ n ih =>
    intro a
    rw [natDigits_unfold]
    by_cases h : n < 10
    · rw [if_pos h]
      show pdStep a (digitChar n) = a * 10 ^ 1 + n
      rw [pdStep_digitChar a n h]
      ring
    · rw [if_neg h]
      rw [List.foldl_append, List.length_append]
      rw [ih (n / 10) (by omega) a]
      show pdStep (a * 10 ^ (natDigits (n / 10)).length + n / 10)
        (digitChar (n % 10)) = _
      rw [pdStep_digitChar _ _ (by omega : n % 10 < 10)]
      have hdm : 10 * (n / 10) + n % 10 = n := Nat.div_add_mod n 10
      have hl : (natDigits (n / 10)).length + [digitChar (n % 10)].length =
          (natDigits (n / 10)).length + 1 := by simp
      rw [hl, pow_succ]
      calc 10 * (a * 10 ^ (natDigits (n / 10)).length + n / 10) + n % 10
          = a * (10 ^ (natDigits (n / 10)).length * 10) +
            (10 * (n / 10) + n % 10) := by ring
        _ = a * (10 ^ (natDigits (n / 10)).length * 10) + n := by rw [hdm]

/-- Every character of the digit expansion is a digit. -/
theorem natDigits_all_digits (n : Nat) :
    ∀ c ∈ natDigits n, c.isDigit = true := by
  induction n using Nat.strong_induction_on with
  | _ n ih =>
    intro c hc
    rw [natDigits_unfold] at hc
    by_cases h : n < 10
    · rw [if_pos h] at hc
      simp at hc
      subst hc
      exact digitChar_isDigit n h
    · rw [if_neg h] at hc
      rcases List.mem_append.mp hc with h1 | h2
      · exact ih (n / 10) (by omega) c h1
      · simp at h2
        subst h2
        exact digitChar_isDigit (n % 10) (by omega)

/-- The digit expansion contains no neutral placeholder. -/
theorem natDigits_ne_qmark (n : Nat) (c : Char) (hc : c ∈ natDigits n) :
    c ≠ '?' := by
  intro e
  have hd := natDigits_all_digits n c hc
  rw [e] at hd
  exact absurd hd (by decide)

/-- The count of placeholders of a placeholder-free text is zero. -/
theorem countQ_zero (l : List Char) (h : ∀ c ∈ l, c ≠ '?') :
    countQ l = 0 := by
  induction l with
  | nil => rfl
  | cons c rest ih =>
    have hc : c ≠ '?' := h c (List.mem_cons_self c rest)
    simp [countQ, hc, ih (fun x hx => h x (List.mem_cons_of_mem c hx))]

/-- The single replacement skips over a placeholder-free prefix. -/
theorem repl_append_noQ (a : List Char) (h : ∀ c ∈ a, c ≠ '?')
    (b : List Char) (k : Nat) : repl (a ++ b) k = a ++ repl b k := by
  induction a with
  | nil => rfl
  | cons c rest ih =>
    have hc : c ≠ '?' := h c (List.mem_cons_self c rest)
    simp [repl, hc, ih (fun x hx => h x (List.mem_cons_of_mem c hx))]

/-- Iterated replacement skips over a placeholder-free prefix. -/
theorem renA_append_noQ (a : List Char) (h : ∀ c ∈ a, c ≠ '?') :
    ∀ n k s, renA (a ++ s) k n = a ++ renA s k n := by
  intro n
  induction n with
  | zero => intro k s; rfl
  | succ m ih =>
    intro k s
    show renA (repl (a ++ s) k) (k + 1) m = a ++ renA (repl s k) (k + 1) m
    rw [repl_append_noQ a h s k]
    exact ih (k + 1) (repl s k)

/-- When the iteration count matches the placeholder count, the
renumbering loop performs exactly the left-to-right substitution. -/
theorem renA_eq_numberFrom (s : List Char) :
    ∀ k n, countQ s = n → renA s k n = numberFrom s k := by
  induction s with
  | nil =>
    intro k n h
    have h0 : n = 0 := by simpa [countQ] using h.symm
    subst h0
    rfl
  | cons c cs ih =>
    intro k n h
    by_cases hc : c = '?'
    · subst hc
      have h1 : countQ ('?' :: cs) = 1 + countQ cs := by simp [countQ]
      rw [h1] at h
      cases n with
      | zero => omega
      | succ m =>
        have hm : countQ cs = m := by omega
        show renA (repl ('?' :: cs) k) (k + 1) m = numberFrom ('?' :: cs) k
        rw [show repl ('?' :: cs) k = ('$' :: natDigits k) ++ cs from by
          simp [repl]]
        rw [renA_append_noQ ('$' :: natDigits k) (by
          intro x hx
          rcases List.mem_cons.mp hx with he | hd
          · subst he; decide
          · exact natDigits_ne_qmark k x hd) m (k + 1) cs]
        rw [ih (k + 1) m hm]
        simp [numberFrom]
    · have h1 : countQ (c :: cs) = countQ cs := by simp [countQ, hc]
      rw [h1] at h
      rw [show (c :: cs) = [c] ++ cs from rfl]
      rw [renA_append_noQ [c] (by
        intro x hx
        simp at hx
        subst hx
        exact hc) n k cs]
      rw [ih k n h]
      simp [numberFrom, hc]

/-- The foldl over a number range is the iterated replacement. -/
theorem foldl_repl_range (n : Nat) :
    ∀ k s, List.foldl (fun q i => repl q (i + 1)) s (List.range' k n) =
      renA s (k + 1) n := by
  induction n with
  | zero => intro k s; rfl
  | succ m ih =>
    intro k s
    rw [List.range'_succ]
    show List.foldl (fun q i => repl q (i + 1)) (repl s (k + 1))
      (List.range' (k + 1) m) = renA s (k + 1) (m + 1)
    rw [ih (k + 1) (repl s k.succ)]
    rfl

/-- The renumbering loop of the execution primitives equals the
left-to-right substitution numbered from one. -/
theorem renumber_eq_numberFrom (s : List Char) (n : Nat)
    (h : countQ s = n) : renumber s n = numberFrom s 1 := by
  unfold renumber
  rw [List.range_eq_range']
  rw [foldl_repl_range n 0 s]
  exact renA_eq_numberFrom s 1 n h

/-- The token scanner accumulates a run of digit characters. -/
theorem parseAux_digits (ds : List Char) (h : ∀ c ∈ ds, c.isDigit = true) :
    ∀ rest v, parseAux (ds ++ rest) (some v) =
      parseAux rest (some (List.foldl pdStep v ds)) := by
  induction ds with
  | nil => intro rest v; rfl
  | cons d ds2 ih =>
    intro rest v
    have hd : d.isDigit = true := h d (List.mem_cons_self d ds2)
    simp only [List.cons_append, parseAux, hd, if_true, List.foldl_cons]
    exact ih (fun x hx => h x (List.mem_cons_of_mem d hx)) rest (pdStep v d)

/-- The token scanner emits the accumulated number at a non-digit. -/
theorem parseAux_emit (rest : List Char) (w : Nat)
    (h : ∀ c, rest.head? = some c → c.isDigit = false) :
    parseAux rest (some w) = w :: parseAux rest none := by
  cases rest with
  | nil => rfl
  | cons c cs =>
    have hc : c.isDigit = false := h c rfl
    by_cases hd : c = '$' <;> simp [parseAux, hc, hd]

/-- Token extraction from the substituted text: with no stray dollar sign
and no placeholder directly followed by a digit, the tokens are exactly
the consecutive parameter numbers starting at k. -/
theorem parse_numberFrom (s : List Char) :
    ∀ k, (∀ c ∈ s, c ≠ '$') → List.Chain' qdRel s →
      parseAux (numberFrom s k) none = List.range' k (countQ s) := by
  induction s with
  | nil =>
    intro k h hch
    simp [numberFrom, parseAux, countQ]
  | cons c cs ih =>
    intro k h hch
    by_cases hc : c = '?'
    · subst hc
      rw [show numberFrom ('?' :: cs) k =
        '$' :: (natDigits k ++ numberFrom cs (k + 1)) from by simp [numberFrom]]
      rw [show parseAux ('$' :: (natDigits k ++ numberFrom cs (k + 1))) none =
        parseAux (natDigits k ++ numberFrom cs (k + 1)) (some 0) from by
          simp [parseAux]]
      rw [parseAux_digits (natDigits k) (natDigits_all_digits k) _ 0]
      have hval : List.foldl pdStep 0 (natDigits k) = k := by
        rw [natDigits_foldl k 0]
        simp
      rw [hval]
      have hhead : ∀ c2, (numberFrom cs (k + 1)).head? = some c2 →
          c2.isDigit = false := by
        intro c2 hc2
        cases cs with
        | nil => simp [numberFrom] at hc2
        | cons b bs =>
          by_cases hb : b = '?'
          · subst hb
            rw [show numberFrom ('?' :: bs) (k + 1) =
              '$' :: (natDigits (k + 1) ++ numberFrom bs (k + 2)) from by
                simp [numberFrom]] at hc2
            simp at hc2
            subst hc2
            decide
          · rw [show numberFrom (b :: bs) (k + 1) =
              b :: numberFrom bs (k + 1) from by simp [numberFrom, hb]] at hc2
            simp at hc2
            subst hc2
            exact (List.chain'_cons.mp hch).1 rfl
      rw [parseAux_emit _ k hhead]
      rw [ih (k + 1) (fun c2 m => h c2 (List.mem_cons_of_mem _ m)) hch.tail]
      have hq : countQ ('?' :: cs) = countQ cs + 1 := by
        simp [countQ]
        omega
      rw [hq, List.range'_succ]
    · have hcd : c ≠ '$' := h c (List.mem_cons_self c cs)
      rw [show numberFrom (c :: cs) k = c :: numberFrom cs k from by
        simp [numberFrom, hc]]
      rw [show parseAux (c :: numberFrom cs k) none =
        parseAux (numberFrom cs k) none from by simp [parseAux, hcd]]
      rw [ih k (fun c2 m => h c2 (List.mem_cons_of_mem c m)) hch.tail]
      congr 1
      simp [countQ, hc]

/-- Claim C3: when the compiler emitted one neutral placeholder per bound
value (N placeholders for N arguments, with no stray dollar sign and no
placeholder directly followed by a digit), the renumbered text used by
doExec, doQuery and doQueryRow carries exactly the positional-parameter
tokens one through N, in left-to-right order. -/
theorem c3_renumber_tokens (s : List Char) (n : Nat) (hN : countQ s = n)
    (hdol : ∀ c ∈ s, c ≠ '$') (hqd : List.Chain' qdRel s) :
    parseTokens (renumber s n) = List.range' 1 n := by
  unfold parseTokens
  rw [renumber_eq_numberFrom s n hN]
  rw [parse_numberFrom s 1 hdol hqd]
  rw [hN]

/-- The executable adjacency check implies the chain condition. -/
theorem chain'_of_noQDigit (l : List Char) (h : noQDigit l = true) :
    List.Chain' qdRel l := by
  induction l with
  | nil => exact List.chain'_nil
  | cons a rest ih =>
    cases rest with
    | nil => simp
    | cons b bs =>
      rw [List.chain'_cons]
      have h2 : (!(a == '?' && b.isDigit)) = true ∧ noQDigit (b :: bs) = true := by
        simpa [noQDigit] using h
      refine ⟨?_, ih h2.2⟩
      intro ha
      subst ha
      have := h2.1
      simp at this
      exact this

/-- Claim C3 witness: a two-placeholder compiled text is renumbered to
carry exactly the tokens one and two, in order. -/
theorem c3_witness :
    countQ "SELECT a FROM t WHERE (x == ?) AND (y == ?)".data = 2 ∧
    parseTokens (renumber "SELECT a FROM t WHERE (x == ?) AND (y == ?)".data 2) =
      List.range' 1 2 :=
  ⟨by decide,
   c3_renumber_tokens "SELECT a FROM t WHERE (x == ?) AND (y == ?)".data 2
     (by decide) (by decide)
     (chain'_of_noQDigit _ (by decide))⟩

end Ql
